import Mathlib

/-!
A shallow embedding of the Intcode interpreter from `src/shared/intcode.rs`
(`Program`, `Simulator`, `SimulatorIO` and their methods), together with
theorems about its behaviour.

Modelling conventions:
* Rust `isize` becomes `Int`, Rust `usize` becomes `Nat`.  The two `as` casts
  in the source (`op as usize` in `parameter_mode`, `load(dest) as usize` in
  the jump instructions, `relative_base as isize`) are modelled by explicit
  wrap-around functions `isizeToUsize` / `usizeToIsize`.
* Rust `%` on `isize` is truncated remainder, i.e. `Int.tmod`.
* An mpsc receiver is modelled as the queue of currently buffered values plus
  a flag recording whether the sending half has been dropped; an mpsc sender
  is the list of values sent so far plus a flag for a dropped receiver.
* Fallible code returns `Except Err`; a Rust panic (out-of-bounds `Vec`
  indexing in `get_next_op` / `get_param`) is a distinguished result
  (`Option.none` for decoding, `StepResult.panicked` for `step`); a blocking
  `recv` on an empty open channel is the distinguished result
  `StepResult.blocked`.
* `run`'s `while` loop is modelled with explicit fuel; `none` means the fuel
  ran out before the loop returned.
-/

namespace Intcode

/-- Execution state of the simulator (`ProgramState` in the source). -/
inductive ProgramState
  | Running
  | Wait
  | Halted
  deriving DecidableEq, Repr

/-- A decoded instruction parameter (`Parameter` in the source): either a
memory address or a literal value. -/
inductive Parameter
  | Address (a : Nat)
  | Value (v : Int)
  deriving DecidableEq, Repr

/-- Per-operand addressing mode (`ParameterMode` in the source). -/
inductive ParameterMode
  | Position
  | Immediate
  | Relative
  deriving DecidableEq, Repr

/-- A decoded instruction (`Op` in the source). -/
inductive Op
  | Add (x y dest : Parameter)
  | Multiply (x y dest : Parameter)
  | Input (dest : Parameter)
  | Output (value : Parameter)
  | JumpIfTrue (cond dest : Parameter)
  | JumpIfFalse (cond dest : Parameter)
  | LessThan (x y dest : Parameter)
  | Equal (x y dest : Parameter)
  | AdjustRelativeBase (offset : Parameter)
  | Halt
  deriving DecidableEq, Repr

/-- The receiving half of an mpsc channel as the simulator sees it: the queue
of values currently buffered, and whether the sending half has been dropped. -/
structure InChannel where
  pending : List Int
  closed : Bool
  deriving DecidableEq, Repr

/-- The sending half of an mpsc channel: the values sent so far, and whether
the receiving half has been dropped. -/
structure OutChannel where
  sent : List Int
  closed : Bool
  deriving DecidableEq, Repr

/-- The I/O half of the simulator (`SimulatorIO` in the source). -/
structure SimulatorIo where
  input_reader : Option InChannel
  output_sender : Option OutChannel
  blocking_input : Bool
  deriving DecidableEq, Repr

/-- A parsed program (`Program` in the source). -/
structure Program where
  instructions : List Int
  deriving DecidableEq, Repr

/-- The interpreter state (`Simulator` in the source). -/
structure Simulator where
  state : ProgramState
  mem : List Int
  pc : Nat
  relative_base : Nat
  io : SimulatorIo
  deriving DecidableEq, Repr

/-- The distinct error values produced with `format_err!` in the source. -/
inductive Err
  | InvalidOpcode (value : Int) (pc : Nat)
  | InvalidParameterMode (m : Nat)
  | InvalidAddress (address : Int)
  | InvalidDestination (value : Int)
  | BaseOverflow (base : Int)
  | MissingInputChannel
  | MissingOutputChannel
  | ChannelClosed
  deriving DecidableEq, Repr

/-- Outcome of `SimulatorIO::read_input`: a received value together with the
remaining channel, `Ok(None)` (non-blocking, empty), a blocking `recv` that
has to wait, or an error. -/
inductive ReadResult
  | value (v : Int) (rest : InChannel)
  | empty
  | blocked
  | failed (e : Err)
  deriving DecidableEq, Repr

/-- Outcome of `Simulator::step`: the updated simulator, an error together
with the simulator state at the moment the error was raised (Rust mutates
`self` in place, so partial mutations persist on error), a thread blocked in
`recv`, or an out-of-bounds indexing panic. -/
inductive StepResult
  | ok (s : Simulator)
  | failed (e : Err) (s : Simulator)
  | blocked (s : Simulator)
  | panicked
  deriving DecidableEq, Repr

/-- Rust `x as usize` for `x : isize`: reinterpret modulo `2 ^ 64`. -/
def isizeToUsize (x : Int) : Nat :=
  (x % (2 : Int) ^ 64).toNat

/-- Rust `r as isize` for `r : usize`: reinterpret modulo `2 ^ 64`. -/
def usizeToIsize (r : Nat) : Int :=
  if r < 2 ^ 63 then (r : Int) else (r : Int) - 2 ^ 64

/-- `Op::size` from the source. -/
def Op.size : Op → Nat
  | .Add _ _ _ => 4
  | .Multiply _ _ _ => 4
  | .Input _ => 2
  | .Output _ => 2
  | .JumpIfTrue _ _ => 3
  | .JumpIfFalse _ _ => 3
  | .LessThan _ _ _ => 4
  | .Equal _ _ _ => 4
  | .AdjustRelativeBase _ => 2
  | .Halt => 1

/-- `Parameter::to_address` from the source: negative addresses are invalid. -/
def Parameter.to_address (address : Int) : Except Err Parameter :=
  if address < 0 then .error (.InvalidAddress address)
  else .ok (.Address address.toNat)

/-- `Simulator::parameter_mode` from the source.  The argument is cast to
`usize` first (`op as usize`), then the mode digit for parameter `param` is
`op / (100 * 10 ^ param) % 10`. -/
def parameter_mode (op : Int) (param : Nat) : Except Err ParameterMode :=
  let o := isizeToUsize op / (100 * 10 ^ param)
  match o % 10 with
  | 0 => .ok .Position
  | 1 => .ok .Immediate
  | 2 => .ok .Relative
  | _ => .error (.InvalidParameterMode (o % 10))

/-- Sequencing for decoding: `none` is a panic, `.error` an Intcode error. -/
def obind {α β : Type} (x : Option (Except Err α))
    (f : α → Option (Except Err β)) : Option (Except Err β) :=
  match x with
  | none => none
  | some (.error e) => some (.error e)
  | some (.ok a) => f a

/-- `Simulator::get_param` from the source.  Both memory reads use direct
indexing (`self.mem[..]`), modelled with `List.get?` where `none` is a panic.
The mode is computed (and can fail) before `mem[pc + i + 1]` is read. -/
def Simulator.get_param (s : Simulator) (i : Nat) :
    Option (Except Err Parameter) :=
  match s.mem.get? s.pc with
  | none => none
  | some instr =>
    match parameter_mode instr i with
    | .error e => some (.error e)
    | .ok mode =>
      match s.mem.get? (s.pc + i + 1) with
      | none => none
      | some raw =>
        match mode with
        | .Position => some (Parameter.to_address raw)
        | .Immediate => some (.ok (.Value raw))
        | .Relative =>
          some (Parameter.to_address (usizeToIsize s.relative_base + raw))

/-- `Simulator::get_next_op` from the source: `opcode = self.mem[self.pc] % 100`
(truncated remainder, direct indexing), then one decode branch per opcode.
The invalid-opcode error carries `self.mem[self.pc]` and `self.pc`, exactly
the two values interpolated into the Rust error message. -/
def Simulator.get_next_op (s : Simulator) : Option (Except Err Op) :=
  match s.mem.get? s.pc with
  | none => none
  | some instr =>
    let opcode := instr.tmod 100
    if opcode = 1 then
      obind (s.get_param 0) fun x =>
      obind (s.get_param 1) fun y =>
      obind (s.get_param 2) fun dest =>
      some (.ok (.Add x y dest))
    else if opcode = 2 then
      obind (s.get_param 0) fun x =>
      obind (s.get_param 1) fun y =>
      obind (s.get_param 2) fun dest =>
      some (.ok (.Multiply x y dest))
    else if opcode = 3 then
      obind (s.get_param 0) fun dest =>
      some (.ok (.Input dest))
    else if opcode = 4 then
      obind (s.get_param 0) fun value =>
      some (.ok (.Output value))
    else if opcode = 5 then
      obind (s.get_param 0) fun cond =>
      obind (s.get_param 1) fun dest =>
      some (.ok (.JumpIfTrue cond dest))
    else if opcode = 6 then
      obind (s.get_param 0) fun cond =>
      obind (s.get_param 1) fun dest =>
      some (.ok (.JumpIfFalse cond dest))
    else if opcode = 7 then
      obind (s.get_param 0) fun x =>
      obind (s.get_param 1) fun y =>
      obind (s.get_param 2) fun dest =>
      some (.ok (.LessThan x y dest))
    else if opcode = 8 then
      obind (s.get_param 0) fun x =>
      obind (s.get_param 1) fun y =>
      obind (s.get_param 2) fun dest =>
      some (.ok (.Equal x y dest))
    else if opcode = 9 then
      obind (s.get_param 0) fun offset =>
      some (.ok (.AdjustRelativeBase offset))
    else if opcode = 99 then
      some (.ok .Halt)
    else
      some (.error (.InvalidOpcode instr s.pc))

/-- `Simulator::load` from the source: dereference an address (0 beyond the
current memory length), or return a literal value. -/
def Simulator.load (s : Simulator) (param : Parameter) : Int :=
  match param with
  | .Address addr => if s.mem.length ≤ addr then 0 else s.mem.getD addr 0
  | .Value value => value

/-- The memory effect of `Simulator::store` on an address: `resize_with`
zero-fill up to `addr + 1` when needed, then write. -/
def growSet (mem : List Int) (addr : Nat) (value : Int) : List Int :=
  (if mem.length ≤ addr then
    mem ++ List.replicate (addr + 1 - mem.length) 0
  else mem).set addr value

/-- `Simulator::store` from the source: writing through an Immediate
parameter is an error ("Cannot store using immediate parameter ..."). -/
def Simulator.store (s : Simulator) (target : Parameter) (value : Int) :
    Except Err Simulator :=
  match target with
  | .Address addr => .ok { s with mem := growSet s.mem addr value }
  | .Value v => .error (.InvalidDestination v)

/-- `Simulator::peek` from the source. -/
def Simulator.peek (s : Simulator) (address : Nat) : Int :=
  s.load (.Address address)

/-- `Simulator::poke` from the source (the `Result` is discarded with
`.ok()`, so a failing store would leave the simulator unchanged). -/
def Simulator.poke (s : Simulator) (address : Nat) (value : Int) : Simulator :=
  match s.store (.Address address) value with
  | .ok s' => s'
  | .error _ => s

/-- `SimulatorIO::read_input` from the source.  With a connected receiver:
blocking mode does `recv()` (a buffered value, else wait, else a disconnect
error); non-blocking mode does `try_recv()` (a buffered value, else
`Ok(None)` when empty and open, else a disconnect error). -/
def SimulatorIo.read_input (io : SimulatorIo) : ReadResult :=
  match io.input_reader with
  | some ch =>
    match ch.pending with
    | v :: rest => .value v { ch with pending := rest }
    | [] =>
      if ch.closed then .failed .ChannelClosed
      else if io.blocking_input then .blocked
      else .empty
  | none => .failed .MissingInputChannel

/-- `SimulatorIO::send_output` from the source. -/
def SimulatorIo.send_output (io : SimulatorIo) (value : Int) :
    Except Err SimulatorIo :=
  match io.output_sender with
  | some ch =>
    if ch.closed then .error .ChannelClosed
    else .ok { io with output_sender := some { ch with sent := ch.sent ++ [value] } }
  | none => .error .MissingOutputChannel

/-- `Simulator::step` from the source: decode one instruction, execute it,
advance `pc` by the instruction size unless the instruction jumped or
suspended. -/
def Simulator.step (s : Simulator) : StepResult :=
  match s.get_next_op with
  | none => .panicked
  | some (.error e) => .failed e s
  | some (.ok op) =>
    match op with
    | .Add x y dest =>
      match s.store dest (s.load x + s.load y) with
      | .ok s' => .ok { s' with pc := s'.pc + 4 }
      | .error e => .failed e s
    | .Multiply x y dest =>
      match s.store dest (s.load x * s.load y) with
      | .ok s' => .ok { s' with pc := s'.pc + 4 }
      | .error e => .failed e s
    | .Input dest =>
      match s.io.read_input with
      | .value v ch =>
        let s1 : Simulator := { s with io := { s.io with input_reader := some ch } }
        match s1.store dest v with
        | .ok s2 => .ok { s2 with pc := s2.pc + 2 }
        | .error e => .failed e s1
      | .empty => .ok { s with state := .Wait }
      | .blocked => .blocked s
      | .failed e => .failed e s
    | .Output value =>
      match s.io.send_output (s.load value) with
      | .ok io' => .ok { s with io := io', pc := s.pc + 2 }
      | .error e => .failed e s
    | .JumpIfTrue cond dest =>
      if s.load cond ≠ 0 then .ok { s with pc := isizeToUsize (s.load dest) }
      else .ok { s with pc := s.pc + 3 }
    | .JumpIfFalse cond dest =>
      if s.load cond = 0 then .ok { s with pc := isizeToUsize (s.load dest) }
      else .ok { s with pc := s.pc + 3 }
    | .LessThan x y dest =>
      match s.store dest (if s.load x < s.load y then 1 else 0) with
      | .ok s' => .ok { s' with pc := s'.pc + 4 }
      | .error e => .failed e s
    | .Equal x y dest =>
      match s.store dest (if s.load x = s.load y then 1 else 0) with
      | .ok s' => .ok { s' with pc := s'.pc + 4 }
      | .error e => .failed e s
    | .AdjustRelativeBase offset =>
      let new_base := usizeToIsize s.relative_base + s.load offset
      if new_base < 0 then .failed (.BaseOverflow new_base) s
      else .ok { s with relative_base := new_base.toNat, pc := s.pc + 2 }
    | .Halt => .ok { s with state := .Halted, pc := s.pc + 1 }

/-- The `while` loop inside `Simulator::run`, with explicit fuel (`none`
means the fuel ran out): while `is_running()` (state not Halted) do one
step, breaking out when the step suspended (state Wait). -/
def runAux : Nat → Simulator → Option StepResult
  | 0, _ => none
  | fuel + 1, s =>
    if s.state = .Halted then some (.ok s)
    else
      match s.step with
      | .ok s' => if s'.state = .Wait then some (.ok s') else runAux fuel s'
      | r => some r

/-- `Simulator::run` from the source: set state to Running, then loop. -/
def Simulator.run (fuel : Nat) (s : Simulator) : Option StepResult :=
  runAux fuel { s with state := .Running }

/-- Plain iteration of `step` (stopping at a Halted state), used to express
"the execution reaches an instruction with opcode 99". -/
def stepN : Nat → Simulator → StepResult
  | 0, s => .ok s
  | n + 1, s =>
    if s.state = .Halted then .ok s
    else
      match s.step with
      | .ok s' => stepN n s'
      | r => r

/-- `Simulator::new` from the source. -/
def Simulator.new : Simulator :=
  { state := .Halted, mem := [], pc := 0, relative_base := 0,
    io := { input_reader := none, output_sender := none, blocking_input := false } }

/-- `Simulator::load_program` from the source: state is reset to
`ProgramState::Halted`, memory to a copy of the program, `pc` and
`relative_base` to 0; `io` is untouched. -/
def Simulator.load_program (s : Simulator) (program : Program) : Simulator :=
  { s with state := .Halted, mem := program.instructions,
           pc := 0, relative_base := 0 }

/-- `Simulator::with_program` from the source. -/
def Simulator.with_program (program : Program) : Simulator :=
  Simulator.new.load_program program

/-- `Simulator::is_running` from the source. -/
def Simulator.is_running (s : Simulator) : Bool :=
  s.state ≠ .Halted

/-- `Simulator::set_blocking_input` from the source. -/
def Simulator.set_blocking_input (s : Simulator) (blocking : Bool) : Simulator :=
  { s with io := { s.io with blocking_input := blocking } }

/-- `Simulator::connect_input` from the source. -/
def Simulator.connect_input (s : Simulator) (input : InChannel) : Simulator :=
  { s with io := { s.io with input_reader := some input } }

/-- `Simulator::connect_output` from the source. -/
def Simulator.connect_output (s : Simulator) (output : OutChannel) : Simulator :=
  { s with io := { s.io with output_sender := some output } }

deriving instance DecidableEq for Except

/-! Concrete simulators used by witnesses and counterexamples. -/

/-- The program `3,0,99` with an empty, still-open input channel connected,
in non-blocking mode. -/
def c1sim : Simulator :=
  { Simulator.with_program { instructions := [3, 0, 99] } with
    io := { input_reader := some { pending := [], closed := false },
            output_sender := none, blocking_input := false } }

/-- The program `104,5,99` with an output channel connected. -/
def c4sim : Simulator :=
  { Simulator.with_program { instructions := [104, 5, 99] } with
    io := { input_reader := none,
            output_sender := some { sent := [], closed := false },
            blocking_input := false } }

/-- The program `104,5,99` with no output channel connected. -/
def c4simNoc : Simulator :=
  Simulator.with_program { instructions := [104, 5, 99] }

/-- The immediate-destination program `11101,1,1,1,99` from the source's
`test_storing_to_immediate_param_fails` test. -/
def c5sim : Simulator :=
  Simulator.with_program { instructions := [11101, 1, 1, 1, 99] }

/-- A simulator whose current cell holds the invalid opcode value 55. -/
def c8sim : Simulator :=
  Simulator.with_program { instructions := [55] }

/-- The program `3,0,99` with an empty, still-open input channel connected,
in blocking mode. -/
def c9sim : Simulator :=
  { Simulator.with_program { instructions := [3, 0, 99] } with
    io := { input_reader := some { pending := [], closed := false },
            output_sender := none, blocking_input := true } }

/-! Helper lemmas. -/

/-- Decoding depends only on `mem`, `pc` and `relative_base`. -/
theorem get_param_congr (s s' : Simulator) (hm : s'.mem = s.mem)
    (hp : s'.pc = s.pc) (hr : s'.relative_base = s.relative_base) (i : Nat) :
    s'.get_param i = s.get_param i := by
  unfold Simulator.get_param
  rw [hm, hp, hr]

/-- Decoding depends only on `mem`, `pc` and `relative_base`. -/
theorem get_next_op_congr (s s' : Simulator) (hm : s'.mem = s.mem)
    (hp : s'.pc = s.pc) (hr : s'.relative_base = s.relative_base) :
    s'.get_next_op = s.get_next_op := by
  unfold Simulator.get_next_op
  simp only [get_param_congr s s' hm hp hr, hm, hp]

/-- A successful store writes through an address; the memory effect is
`growSet` and nothing else changes. -/
theorem store_ok_inversion (s s' : Simulator) (t : Parameter) (v : Int)
    (h : s.store t v = .ok s') :
    ∃ addr, t = .Address addr ∧ s' = { s with mem := growSet s.mem addr v } := by
  cases t with
  | Address addr =>
    refine ⟨addr, rfl, ?_⟩
    unfold Simulator.store at h
    exact (Except.ok.inj h).symm
  | Value w => exact absurd h (by unfold Simulator.store; simp)

/-- `read_input` can return `Ok(None)` only in non-blocking mode on an
empty, still-open channel. -/
theorem read_input_empty_inversion (io : SimulatorIo)
    (h : io.read_input = .empty) :
    io.blocking_input = false ∧
    io.input_reader = some { pending := [], closed := false } := by
  unfold SimulatorIo.read_input at h
  cases hir : io.input_reader with
  | none => rw [hir] at h; simp at h
  | some ch =>
    rw [hir] at h
    simp only [] at h
    cases hp : ch.pending with
    | cons v rest => rw [hp] at h; simp at h
    | nil =>
      rw [hp] at h
      cases hcl : ch.closed with
      | true => rw [hcl] at h; simp at h
      | false =>
        rw [hcl] at h
        cases hb : io.blocking_input with
        | true => rw [hb] at h; simp at h
        | false =>
          refine ⟨rfl, ?_⟩
          have : ch = { pending := [], closed := false } := by
            cases ch
            simp_all
          rw [this]

/-- An Input instruction whose non-blocking receive found nothing suspends:
state becomes Wait and nothing else (in particular not `pc`) changes. -/
theorem step_suspends (s : Simulator) (dest : Parameter)
    (hop : s.get_next_op = some (.ok (.Input dest)))
    (hre : s.io.read_input = .empty) :
    s.step = .ok { s with state := .Wait } := by
  simp only [Simulator.step, hop, hre]

/-- Inversion: the only step that produces a Wait state from a non-Wait one
is an Input instruction whose non-blocking receive found an empty, open
channel; it changes only the state field. -/
theorem step_ok_wait_inversion (s s' : Simulator) (h : s.step = .ok s')
    (hw : s'.state = .Wait) :
    s.state = .Wait ∨
    (s.io.blocking_input = false ∧
     s.io.input_reader = some { pending := [], closed := false } ∧
     s' = { s with state := .Wait } ∧
     ∃ dest, s.get_next_op = some (.ok (.Input dest))) := by
  unfold Simulator.step at h
  split at h
  · exact absurd h (by simp)
  · exact absurd h (by simp)
  next op hop =>
    split at h
    -- Add
    · split at h
      next s1 hst =>
        obtain ⟨addr, -, rfl⟩ := store_ok_inversion _ _ _ _ hst
        left
        rw [← StepResult.ok.inj h] at hw
        simpa using hw
      next e hst => exact absurd h (by simp)
    -- Multiply
    · split at h
      next s1 hst =>
        obtain ⟨addr, -, rfl⟩ := store_ok_inversion _ _ _ _ hst
        left
        rw [← StepResult.ok.inj h] at hw
        simpa using hw
      next e hst => exact absurd h (by simp)
    -- Input
    next dest =>
      split at h
      next v ch hre =>
        simp only [] at h
        split at h
        next s2 hst =>
          obtain ⟨addr, -, rfl⟩ := store_ok_inversion _ _ _ _ hst
          left
          rw [← StepResult.ok.inj h] at hw
          simpa using hw
        next e hst => exact absurd h (by simp)
      next hre =>
        obtain ⟨hb, hir⟩ := read_input_empty_inversion _ hre
        exact Or.inr ⟨hb, hir, (StepResult.ok.inj h).symm, dest, hop⟩
      next hre => exact absurd h (by simp)
      next e hre => exact absurd h (by simp)
    -- Output
    · split at h
      next io' hsend =>
        left
        rw [← StepResult.ok.inj h] at hw
        simpa using hw
      next e hsend => exact absurd h (by simp)
    -- JumpIfTrue
    · split at h
      · left
        rw [← StepResult.ok.inj h] at hw
        simpa using hw
      · left
        rw [← StepResult.ok.inj h] at hw
        simpa using hw
    -- JumpIfFalse
    · split at h
      · left
        rw [← StepResult.ok.inj h] at hw
        simpa using hw
      · left
        rw [← StepResult.ok.inj h] at hw
        simpa using hw
    -- LessThan
    · split at h
      next s1 hst =>
        obtain ⟨addr, -, rfl⟩ := store_ok_inversion _ _ _ _ hst
        left
        rw [← StepResult.ok.inj h] at hw
        simpa using hw
      next e hst => exact absurd h (by simp)
    -- Equal
    · split at h
      next s1 hst =>
        obtain ⟨addr, -, rfl⟩ := store_ok_inversion _ _ _ _ hst
        left
        rw [← StepResult.ok.inj h] at hw
        simpa using hw
      next e hst => exact absurd h (by simp)
    -- AdjustRelativeBase
    · simp only [] at h
      split at h
      · exact absurd h (by simp)
      · left
        rw [← StepResult.ok.inj h] at hw
        simpa using hw
    -- Halt
    · rw [← StepResult.ok.inj h] at hw
      simp at hw

/-- A freshly suspended simulator re-executes the same Input instruction and
suspends again (same pc, same memory, same empty channel): it is a fixed
point of `step`. -/
theorem wait_step_self (s s' : Simulator) (hs : s.state ≠ .Wait)
    (h : s.step = .ok s') (hw : s'.state = .Wait) :
    s'.step = .ok s' := by
  rcases step_ok_wait_inversion s s' h hw with h1 | ⟨hb, hir, rfl, dest, hop⟩
  · exact absurd h1 hs
  · have hop' : ({ s with state := .Wait } : Simulator).get_next_op =
        some (.ok (.Input dest)) := by
      rw [get_next_op_congr s { s with state := .Wait } rfl rfl rfl]
      exact hop
    have hre : ({ s with state := .Wait } : Simulator).io.read_input = .empty := by
      show s.io.read_input = .empty
      unfold SimulatorIo.read_input
      rw [hir]
      simp [hb]
    exact step_suspends _ dest hop' hre

/-- A fixed point of `step` is a fixed point of `stepN`. -/
theorem stepN_fix (s : Simulator) (hstep : s.step = .ok s) :
    ∀ n, stepN n s = .ok s := by
  intro n
  induction n with
  | zero => rfl
  | succ n ih =>
    by_cases hh : s.state = .Halted
    · simp [stepN, hh]
    · simp [stepN, hh, hstep, ih]

/-- If iterating `step` from a non-Wait state reaches a Halted state, the
`run` loop reaches the same state and exits. -/
theorem runAux_of_stepN :
    ∀ (n : Nat) (s s' : Simulator), s.state ≠ .Wait → stepN n s = .ok s' →
      s'.state = .Halted → runAux (n + 1) s = some (.ok s') := by
  intro n
  induction n with
  | zero =>
    intro s s' hs hst hh
    have : s = s' := by simpa [stepN] using hst
    subst this
    simp [runAux, hh]
  | succ n ih =>
    intro s s' hs hst hh
    by_cases hhalt : s.state = .Halted
    · have : s = s' := by simpa [stepN, hhalt] using hst
      subst this
      simp [runAux, hhalt]
    · rw [stepN, if_neg hhalt] at hst
      cases hstep : s.step with
      | ok s1 =>
        rw [hstep] at hst
        simp only [] at hst
        by_cases hw : s1.state = .Wait
        · have hfix := wait_step_self s s1 hs hstep hw
          rw [stepN_fix s1 hfix n] at hst
          rw [StepResult.ok.inj hst] at hw
          rw [hh] at hw
          exact absurd hw (by simp)
        · rw [runAux, if_neg hhalt, hstep]
          simp only [if_neg hw]
          exact ih s1 s' hw hst hh
      | failed e s1 => rw [hstep] at hst; exact absurd hst (by simp)
      | blocked s1 => rw [hstep] at hst; exact absurd hst (by simp)
      | panicked => rw [hstep] at hst; exact absurd hst (by simp)

/-- When the `run` loop returns normally, the final state is Halted or
Wait. -/
theorem runAux_ok_state :
    ∀ (fuel : Nat) (s s' : Simulator), runAux fuel s = some (.ok s') →
      s'.state = .Halted ∨ s'.state = .Wait := by
  intro fuel
  induction fuel with
  | zero => intro s s' h; simp [runAux] at h
  | succ n ih =>
    intro s s' h
    rw [runAux] at h
    by_cases hh : s.state = .Halted
    · rw [if_pos hh] at h
      have : s = s' := by simpa using h
      subst this
      exact Or.inl hh
    · rw [if_neg hh] at h
      cases hstep : s.step with
      | ok s1 =>
        rw [hstep] at h
        simp only [] at h
        by_cases hw : s1.state = .Wait
        · rw [if_pos hw] at h
          have : s1 = s' := by simpa using h
          subst this
          exact Or.inr hw
        · rw [if_neg hw] at h
          exact ih s1 s' h
      | failed e s1 => rw [hstep] at h; exact absurd h (by simp)
      | blocked s1 => rw [hstep] at h; exact absurd h (by simp)
      | panicked => rw [hstep] at h; exact absurd h (by simp)

/-- Changing only `state` and `io` leaves decoding unchanged. -/
theorem get_next_op_state_io (s : Simulator) (st : ProgramState)
    (io2 : SimulatorIo) :
    ({ s with state := st, io := io2 } : Simulator).get_next_op =
      s.get_next_op :=
  get_next_op_congr s { s with state := st, io := io2 } rfl rfl rfl

/-- If the cell of the first operand is beyond the tape, fetching the first
parameter panics (provided the mode digit itself was valid). -/
theorem get_param0_oob (s : Simulator) (v : Int) (m : ParameterMode)
    (hm : s.mem.get? s.pc = some v) (hmode : parameter_mode v 0 = .ok m)
    (hlen : s.mem.length ≤ s.pc + 1) :
    s.get_param 0 = none := by
  unfold Simulator.get_param
  rw [hm]
  simp only []
  rw [hmode]
  simp only []
  rw [List.get?_eq_none.2 (by omega)]

/-- Executing an Input instruction with an address destination and a value
queued: the value is popped, stored at the destination, and `pc` advances
by 2. -/
theorem step_input_value (s : Simulator) (a : Nat) (v : Int)
    (rest : List Int) (c : Bool)
    (hop : s.get_next_op = some (.ok (.Input (.Address a))))
    (hir : s.io.input_reader = some { pending := v :: rest, closed := c }) :
    s.step = .ok { s with
                   mem := growSet s.mem a v,
                   pc := s.pc + 2,
                   io := { s.io with
                           input_reader := some { pending := rest, closed := c } } } := by
  have hre : s.io.read_input = .value v { pending := rest, closed := c } := by
    simp [SimulatorIo.read_input, hir]
  simp only [Simulator.step, hop, hre]
  rfl

/-- C2: for every valid loaded program whose execution reaches an instruction
with opcode 99, `run` returns with the Simulator halted; and `run`, which
repeatedly steps, returns normally exactly when the state has become Halted
or WaitingForInput. -/
theorem run_reaches_halt_and_returns :
    (∀ (n : Nat) (s s' : Simulator),
       stepN n { s with state := .Running } = .ok s' → s'.state = .Halted →
       Simulator.run (n + 1) s = some (.ok s')) ∧
    (∀ (fuel : Nat) (s s' : Simulator),
       Simulator.run fuel s = some (.ok s') →
       s'.state = .Halted ∨ s'.state = .Wait) := by
  constructor
  · intro n s s' hst hh
    exact runAux_of_stepN n { s with state := .Running } s' (by simp) hst hh
  · intro fuel s s' h
    exact runAux_ok_state fuel { s with state := .Running } s' h

/-- C2 witness: the program `99` executes its Halt in one step, and `run`
returns with the simulator halted and `pc` advanced past the 99. -/
theorem run_reaches_halt_witness :
    Simulator.run 2 (Simulator.with_program { instructions := [99] }) =
      some (.ok { Simulator.with_program { instructions := [99] } with
                  state := .Halted, pc := 1 }) :=
  run_reaches_halt_and_returns.1 1
    (Simulator.with_program { instructions := [99] })
    { Simulator.with_program { instructions := [99] } with
      state := .Halted, pc := 1 }
    (by decide) rfl

/-- C3 counterexample: immediately after `load_program` the state is Halted,
not Running, and `is_running()` is false — the claim asserts Running/true. -/
theorem load_program_not_running_cex :
    (Simulator.new.load_program { instructions := [99] }).state = .Halted ∧
    (Simulator.new.load_program { instructions := [99] }).is_running = false := by
  decide

/-- C3 amended: `load_program` resets `pc` to 0, `relative_base` to 0 and the
state to Halted (the state `Simulator::new` initialises, so `is_running()` is
false right after loading; `run` itself sets the state to Running), copies
the program into memory, and leaves the connected channels untouched. -/
theorem load_program_resets (s : Simulator) (p : Program) :
    (s.load_program p).pc = 0 ∧ (s.load_program p).relative_base = 0 ∧
    (s.load_program p).state = .Halted ∧
    (s.load_program p).is_running = false ∧
    (s.load_program p).mem = p.instructions ∧
    (s.load_program p).io = s.io :=
  ⟨rfl, rfl, rfl, rfl, rfl, rfl⟩

/-- C6: `peek` at any address at or beyond the current memory length returns
0 (it is total, so it cannot error or panic). -/
theorem peek_beyond_length (s : Simulator) (a : Nat)
    (h : s.mem.length ≤ a) : s.peek a = 0 := by
  unfold Simulator.peek Simulator.load
  simp [h]

/-- C6 witness: a fresh simulator has empty memory, and `peek 5` is 0. -/
theorem peek_beyond_length_witness : Simulator.new.peek 5 = 0 :=
  peek_beyond_length Simulator.new 5 (by decide)

/-- The length of memory after a store: grown to `addr + 1` when needed,
unchanged otherwise. -/
theorem growSet_length (mem : List Int) (a : Nat) (v : Int) :
    (growSet mem a v).length = max mem.length (a + 1) := by
  unfold growSet
  split
  next h => simp; omega
  next h => simp; omega

/-- Reading back the cell just written. -/
theorem growSet_getD_self (mem : List Int) (a : Nat) (v : Int) :
    (growSet mem a v).getD a 0 = v := by
  unfold growSet
  split
  next h =>
    have hl : a < (mem ++ List.replicate (a + 1 - mem.length) 0).length := by
      simp
      omega
    rw [List.getD_eq_getElem?_getD, List.getElem?_set_self',
        List.getElem?_eq_getElem hl]
    rfl
  next h =>
    have hl : a < mem.length := by omega
    rw [List.getD_eq_getElem?_getD, List.getElem?_set_self',
        List.getElem?_eq_getElem hl]
    rfl

/-- The zero-fill: cells between the old length and the written address
hold 0. -/
theorem growSet_getD_pad (mem : List Int) (a b : Nat) (v : Int)
    (hb1 : mem.length ≤ b) (hb2 : b < a) :
    (growSet mem a v).getD b 0 = 0 := by
  unfold growSet
  rw [if_pos (by omega : mem.length ≤ a)]
  rw [List.getD_eq_getElem?_getD,
      List.getElem?_set_ne (by omega : a ≠ b),
      List.getElem?_append_right hb1,
      List.getElem?_replicate]
  rw [if_pos (by omega)]
  rfl

/-- C7: `poke a v` followed by `peek a` returns `v`; `poke` zero-fills the
cells it grows past, never shrinks memory, and grows it exactly to
`a + 1` when the address was beyond the current length. -/
theorem poke_then_peek (s : Simulator) (a : Nat) (v : Int) :
    (s.poke a v).peek a = v ∧
    s.mem.length ≤ (s.poke a v).mem.length ∧
    (s.poke a v).mem.length = max s.mem.length (a + 1) ∧
    (∀ b, s.mem.length ≤ b → b < a → (s.poke a v).peek b = 0) := by
  have hpoke : s.poke a v = { s with mem := growSet s.mem a v } := rfl
  rw [hpoke]
  refine ⟨?_, ?_, ?_, ?_⟩
  · unfold Simulator.peek Simulator.load
    simp only []
    rw [growSet_length, if_neg (by omega)]
    exact growSet_getD_self s.mem a v
  · simp only []
    rw [growSet_length]
    omega
  · simp only []
    rw [growSet_length]
  · intro b hb1 hb2
    unfold Simulator.peek Simulator.load
    simp only []
    rw [growSet_length, if_neg (by omega)]
    exact growSet_getD_pad s.mem a b v hb1 hb2

/-- C7 witness: on a fresh simulator, `poke 3 7` then `peek 3` returns 7, and
the zero-filled cell 1 reads 0. -/
theorem poke_then_peek_witness :
    (Simulator.new.poke 3 7).peek 3 = 7 ∧
    (Simulator.new.poke 3 7).peek 1 = 0 :=
  ⟨(poke_then_peek Simulator.new 3 7).1,
   (poke_then_peek Simulator.new 3 7).2.2.2 1 (by decide) (by decide)⟩

/-- C8: the opcode is `mem[pc] % 100` (truncated remainder); any value whose
opcode is not one of 1–9, 99 makes the step fail with an InvalidOpcode
error carrying the offending cell value and the program counter — the two
values the source interpolates into its diagnostic. -/
theorem invalid_opcode_reported (s : Simulator) (v : Int)
    (hm : s.mem.get? s.pc = some v)
    (hv : v.tmod 100 ∉ ([1, 2, 3, 4, 5, 6, 7, 8, 9, 99] : List Int)) :
    s.get_next_op = some (.error (.InvalidOpcode v s.pc)) ∧
    s.step = .failed (.InvalidOpcode v s.pc) s := by
  simp only [List.mem_cons, List.not_mem_nil, or_false, not_or] at hv
  obtain ⟨h1, h2, h3, h4, h5, h6, h7, h8, h9, h99⟩ := hv
  have hop : s.get_next_op = some (.error (.InvalidOpcode v s.pc)) := by
    unfold Simulator.get_next_op
    rw [hm]
    simp [h1, h2, h3, h4, h5, h6, h7, h8, h9, h99]
  refine ⟨hop, ?_⟩
  simp [Simulator.step, hop]

/-- C8 witness: the cell value 55 (opcode 55) fails with the diagnostic
carrying 55 and pc 0. -/
theorem invalid_opcode_witness :
    c8sim.step = .failed (.InvalidOpcode 55 0) c8sim :=
  (invalid_opcode_reported c8sim 55 rfl (by decide)).2

/-- C4 counterexample: executing the Output of `104,5,99` yields exactly the
prior simulator with `pc` advanced and the value appended to the output
channel — every other field (`state`, `mem`, `relative_base`, the input
side, `blocking_input`) is unchanged, so no "last output" is recorded
anywhere in the Simulator, and the struct has no such field or accessor to
retrieve one. -/
theorem output_no_last_output_record_cex :
    c4sim.step = .ok { c4sim with
                       pc := 2,
                       io := { c4sim.io with
                               output_sender := some { sent := [5], closed := false } } } := by
  decide

/-- C4 amended: executing an Output instruction with no output channel
connected fails with the missing-channel error; with an open channel
connected it sends the resolved value to the channel and changes nothing
else besides advancing `pc` (the Simulator keeps no separate "last output"
record and exposes no accessor for one). -/
theorem output_instruction_channel (s : Simulator) (p : Parameter)
    (hop : s.get_next_op = some (.ok (.Output p))) :
    (s.io.output_sender = none → s.step = .failed .MissingOutputChannel s) ∧
    (∀ ch : OutChannel, ch.closed = false → s.io.output_sender = some ch →
      s.step = .ok { s with
                     pc := s.pc + 2,
                     io := { s.io with
                             output_sender := some { ch with sent := ch.sent ++ [s.load p] } } }) := by
  constructor
  · intro hns
    have hsend : s.io.send_output (s.load p) = .error .MissingOutputChannel := by
      simp [SimulatorIo.send_output, hns]
    simp [Simulator.step, hop, hsend]
  · intro ch hcl hs
    have hsend : s.io.send_output (s.load p) =
        .ok { s.io with output_sender := some { ch with sent := ch.sent ++ [s.load p] } } := by
      simp [SimulatorIo.send_output, hs, hcl]
    simp [Simulator.step, hop, hsend]

/-- C4 witness: with no output channel connected, the Output of `104,5,99`
fails with the missing-channel error. -/
theorem output_instruction_witness :
    c4simNoc.step = .failed .MissingOutputChannel c4simNoc :=
  (output_instruction_channel c4simNoc (.Value 5) (by decide)).1 rfl

/-- C5: whenever an instruction attempts to store through an Immediate-mode
destination parameter, execution fails with the invalid-destination error and
the memory is left exactly as it was (the error carries the unchanged
simulator); in particular `11101,1,1,1,99` fails this way rather than
performing a corrupted write. -/
theorem immediate_destination_fails :
    (∀ (s : Simulator) (x y : Parameter) (d : Int),
       s.get_next_op = some (.ok (.Add x y (.Value d))) →
       s.step = .failed (.InvalidDestination d) s) ∧
    (∀ (s : Simulator) (x y : Parameter) (d : Int),
       s.get_next_op = some (.ok (.Multiply x y (.Value d))) →
       s.step = .failed (.InvalidDestination d) s) ∧
    (∀ (s : Simulator) (x y : Parameter) (d : Int),
       s.get_next_op = some (.ok (.LessThan x y (.Value d))) →
       s.step = .failed (.InvalidDestination d) s) ∧
    (∀ (s : Simulator) (x y : Parameter) (d : Int),
       s.get_next_op = some (.ok (.Equal x y (.Value d))) →
       s.step = .failed (.InvalidDestination d) s) ∧
    (∀ (s : Simulator) (d w : Int) (rest : List Int) (c : Bool),
       s.get_next_op = some (.ok (.Input (.Value d))) →
       s.io.input_reader = some { pending := w :: rest, closed := c } →
       s.step = .failed (.InvalidDestination d)
         { s with io := { s.io with
                          input_reader := some { pending := rest, closed := c } } }) ∧
    (∀ n : Nat,
       Simulator.run (n + 1) c5sim =
         some (.failed (.InvalidDestination 1) { c5sim with state := .Running }) ∧
       ({ c5sim with state := .Running } : Simulator).mem = [11101, 1, 1, 1, 99]) := by
  refine ⟨?_, ?_, ?_, ?_, ?_, ?_⟩
  · intro s x y d hop
    simp [Simulator.step, hop, Simulator.store]
  · intro s x y d hop
    simp [Simulator.step, hop, Simulator.store]
  · intro s x y d hop
    simp [Simulator.step, hop, Simulator.store]
  · intro s x y d hop
    simp [Simulator.step, hop, Simulator.store]
  · intro s d w rest c hop hir
    have hre : s.io.read_input = .value w { pending := rest, closed := c } := by
      simp [SimulatorIo.read_input, hir]
    simp [Simulator.step, hop, hre, Simulator.store]
  · intro n
    refine ⟨?_, rfl⟩
    show runAux (n + 1) { c5sim with state := .Running } = _
    rw [runAux]
    rw [if_neg (by decide)]
    have hstep : ({ c5sim with state := .Running } : Simulator).step =
        .failed (.InvalidDestination 1) { c5sim with state := .Running } := by
      decide
    rw [hstep]

/-- C5 witness: the decoded Add of `11101,1,1,1,99` has destination
`Value 1`, and stepping it fails with the invalid-destination error, memory
untouched. -/
theorem immediate_destination_witness :
    c5sim.step = .failed (.InvalidDestination 1) c5sim :=
  immediate_destination_fails.1 c5sim (.Value 1) (.Value 1) 1 (by decide)

/-- C1: a non-blocking Simulator at an Input instruction with a connected,
open but empty input channel suspends: state becomes Wait and nothing else
changes (in particular the pc stays on the Input instruction).  After one
value `v` is queued and `run` is called again, the first step of that run
consumes exactly that value (the queue is empty again), stores it at the
destination address, advances the pc by 2, and the run then continues from
that state as usual. -/
theorem nonblocking_input_suspend_resume (s : Simulator) (a : Nat) (v : Int)
    (hb : s.io.blocking_input = false)
    (hin : s.io.input_reader = some { pending := [], closed := false })
    (hop : s.get_next_op = some (.ok (.Input (.Address a)))) :
    s.step = .ok { s with state := .Wait } ∧
    ∀ n : Nat,
      Simulator.run (n + 2)
        { s with
          state := .Wait,
          io := { s.io with
                  input_reader := some { pending := [v], closed := false } } } =
      runAux (n + 1)
        { s with
          state := .Running,
          mem := growSet s.mem a v,
          pc := s.pc + 2,
          io := { s.io with
                  input_reader := some { pending := [], closed := false } } } := by
  have hre : s.io.read_input = .empty := by
    simp [SimulatorIo.read_input, hin, hb]
  refine ⟨step_suspends s _ hop hre, ?_⟩
  intro n
  show runAux (n + 1 + 1)
      { s with
        state := .Running,
        io := { s.io with
                input_reader := some { pending := [v], closed := false } } } = _
  have hstept := step_input_value
    { s with
      state := .Running,
      io := { s.io with
              input_reader := some { pending := [v], closed := false } } }
    a v [] false ((get_next_op_state_io s _ _).trans hop) rfl
  rw [runAux]
  rw [if_neg (by simp)]
  rw [hstept]
  simp only []
  rw [if_neg (by simp)]

/-- C1 witness: the program `3,0,99` with an empty open channel suspends at
pc 0, and after queueing the value 5 a new `run` consumes it, stores it at
address 0 and continues past the Input instruction. -/
theorem nonblocking_input_suspend_resume_witness :
    c1sim.step = .ok { c1sim with state := .Wait } ∧
    Simulator.run 2
      { c1sim with
        state := .Wait,
        io := { c1sim.io with
                input_reader := some { pending := [5], closed := false } } } =
    runAux 1
      { c1sim with
        state := .Running,
        mem := growSet c1sim.mem 0 5,
        pc := c1sim.pc + 2,
        io := { c1sim.io with
                input_reader := some { pending := [], closed := false } } } :=
  ⟨(nonblocking_input_suspend_resume c1sim 0 5 rfl rfl (by decide)).1,
   (nonblocking_input_suspend_resume c1sim 0 5 rfl rfl (by decide)).2 0⟩

/-- C9: in blocking mode the state never transitions to Wait — a step can
only produce a Wait state if the simulator was already in one, which the
nonblocking suspend path alone creates; an Input instruction with a value
queued consumes and stores it, with an empty open channel it blocks the
calling thread inside `recv`, and with a disconnected empty channel it fails
with the channel-closed error. -/
theorem blocking_input_never_waits (s : Simulator)
    (hb : s.io.blocking_input = true) :
    (∀ s', s.step = .ok s' → s'.state = .Wait → s.state = .Wait) ∧
    (∀ dest, s.get_next_op = some (.ok (.Input dest)) →
      (s.io.input_reader = some { pending := [], closed := false } →
        s.step = .blocked s) ∧
      (s.io.input_reader = some { pending := [], closed := true } →
        s.step = .failed .ChannelClosed s) ∧
      (∀ (a : Nat) (w : Int) (rest : List Int) (c : Bool), dest = .Address a →
        s.io.input_reader = some { pending := w :: rest, closed := c } →
        s.step = .ok { s with
                       mem := growSet s.mem a w,
                       pc := s.pc + 2,
                       io := { s.io with
                               input_reader := some { pending := rest, closed := c } } })) := by
  constructor
  · intro s' h hw
    rcases step_ok_wait_inversion s s' h hw with h1 | ⟨hb', -⟩
    · exact h1
    · rw [hb] at hb'
      exact absurd hb' (by simp)
  · intro dest hop
    refine ⟨?_, ?_, ?_⟩
    · intro hir
      have hre : s.io.read_input = .blocked := by
        simp [SimulatorIo.read_input, hir, hb]
      simp [Simulator.step, hop, hre]
    · intro hir
      have hre : s.io.read_input = .failed .ChannelClosed := by
        simp [SimulatorIo.read_input, hir]
      simp [Simulator.step, hop, hre]
    · intro a w rest c hdest hir
      subst hdest
      exact step_input_value s a w rest c hop hir

/-- C9 witness: the blocking-mode program `3,0,99` with an empty open input
channel blocks inside `recv` rather than suspending. -/
theorem blocking_input_never_waits_witness : c9sim.step = .blocked c9sim :=
  ((blocking_input_never_waits c9sim rfl).2 (.Address 0) (by decide)).1 rfl

/-- C10: instruction decode reads memory by direct indexing, not through the
zero-defaulting read path: a step whose pc is at or beyond the current
memory length panics, and so does one whose operand cell `pc + i + 1` lies
beyond the tape (shown in general for the first operand at the tape end and
concretely for a later operand); in particular, after a Halt has advanced pc
past a final 99, calling `run` again panics. -/
theorem step_panics_beyond_tape :
    (∀ s : Simulator, s.mem.length ≤ s.pc → s.step = .panicked) ∧
    (∀ (s : Simulator) (v : Int) (m : ParameterMode),
       s.mem.get? s.pc = some v →
       v.tmod 100 ∈ ([1, 2, 3, 4, 5, 6, 7, 8, 9] : List Int) →
       parameter_mode v 0 = .ok m →
       s.mem.length ≤ s.pc + 1 →
       s.step = .panicked) ∧
    (Simulator.with_program { instructions := [1, 0, 0] }).step = .panicked ∧
    (Simulator.run 2 (Simulator.with_program { instructions := [99] }) =
       some (.ok { Simulator.with_program { instructions := [99] } with
                   state := .Halted, pc := 1 }) ∧
     Simulator.run 1 { Simulator.with_program { instructions := [99] } with
                       state := .Halted, pc := 1 } = some .panicked) := by
  refine ⟨?_, ?_, by decide, by decide, by decide⟩
  · intro s h
    have hop : s.get_next_op = none := by
      unfold Simulator.get_next_op
      rw [List.get?_eq_none.2 h]
    simp [Simulator.step, hop]
  · intro s v m hm hv hmode hlen
    have hp0 := get_param0_oob s v m hm hmode hlen
    simp only [List.mem_cons, List.not_mem_nil, or_false] at hv
    have hop : s.get_next_op = none := by
      unfold Simulator.get_next_op
      rw [hm]
      rcases hv with h | h | h | h | h | h | h | h | h <;>
        simp [h, obind, hp0]
    simp [Simulator.step, hop]

/-- C10 witness: a fresh simulator has empty memory, so its very first step
panics on the pc read. -/
theorem step_panics_beyond_tape_witness : Simulator.new.step = .panicked :=
  step_panics_beyond_tape.1 Simulator.new (by decide)

end Intcode
